import Mathlib

/-!
# Kamishiba (`main.go`): a verification development

A shallow embedding of the manga command-line reader of `src/main.go`.

* Go strings are modelled by Lean `String`s (valid Unicode text); the library
  routines the program calls (`strings.TrimSpace`, `strings.ReplaceAll`,
  `strconv.Atoi`, `strconv.Itoa`, the `%d` verb of `fmt.Sprintf`,
  `filepath.Join`, and the fragment of `regexp` that the three patterns of the
  program use) are given executable models of their documented behaviour.
* Go `int` is modelled by `Int` restricted to the 64-bit range
  (`intMin .. intMax`); `++` and `--` wrap around.
* Effects (terminal, HTTP, file system, external commands) go through an
  abstract, stateful world `Sys W`; every call is logged as an `Event`, and a
  function body is a state-passing computation `Eff W α`.
-/

namespace Kamishiba

/-! ## Constants of the program -/

def searchURL : String := "https://m.manganelo.com/search/story/"
def defaultImageDir : String := ".cache/manga-cli/"

def greenColor : String := "\x1b[0;32m"
def yellowColor : String := "\x1b[0;33m"
def whiteColor : String := "\x1b[0;37m"

def lsCommand : String := "ls"
def zipCommand : String := "zip"
def zathuraCmd : String := "zathura"

/-! ## Machine integers -/

/-- Smallest value of a 64-bit Go `int`. -/
def intMin : Int := -9223372036854775808
/-- Largest value of a 64-bit Go `int`. -/
def intMax : Int := 9223372036854775807

/-- Two's complement wrap-around of an integer into the 64-bit `int` range. -/
def wrapInt (z : Int) : Int := (z + 9223372036854775808) % 18446744073709551616 - 9223372036854775808

/-! ## Library models: `strings` -/

/-- Go `unicode.IsSpace`: the Latin-1 spaces and the Unicode White_Space code points. -/
def isSpace (c : Char) : Bool :=
  let n := c.toNat
  (9 ≤ n && n ≤ 13) || n = 32 || n = 0x85 || n = 0xA0 || n = 0x1680 ||
  (0x2000 ≤ n && n ≤ 0x200A) || n = 0x2028 || n = 0x2029 || n = 0x202F ||
  n = 0x205F || n = 0x3000

/-- Go `strings.TrimSpace`: drops leading and trailing white space. -/
def TrimSpace (s : String) : String :=
  String.mk ((s.data.dropWhile isSpace).reverse.dropWhile isSpace).reverse

/-- Go `strings.ReplaceAll(s, old, new)` for a one-character `old` and `new`
(the only way the program calls it: `" "` and `"-"` replaced by `"_"`). -/
def ReplaceAll (s : String) (old new : Char) : String :=
  String.mk (s.data.map (fun c => if c = old then new else c))

/-! ## Library models: `strconv` -/

/-- Decimal digit `d < 10` as a character. -/
def digitChar (d : Nat) : Char := Char.ofNat (48 + d)

/-- Decimal digits of `n`, least significant first; `fuel` bounds the number
of digits produced and `n + 1` is always enough. -/
def decDigits : Nat → Nat → List Char
  | 0, _ => []
  | fuel + 1, n =>
    if n < 10 then [digitChar n] else digitChar (n % 10) :: decDigits fuel (n / 10)

/-- Decimal numeral of a natural number, most significant digit first. -/
def natToDec (n : Nat) : List Char := (decDigits (n + 1) n).reverse

/-- Go `strconv.Itoa` and the `%d` verb: decimal, a leading `-` for negative
values, no padding. -/
def Itoa (z : Int) : String :=
  match z with
  | Int.ofNat n => String.mk (natToDec n)
  | Int.negSucc n => String.mk ('-' :: natToDec (n + 1))

/-- Value of a list of decimal digits read most significant first. -/
def decValue (ds : List Char) : Nat :=
  ds.foldl (fun n ch => n * 10 + (ch.toNat - 48)) 0

/-- Go `strconv.Atoi` on a 64-bit platform: an optional sign, then one or more
ASCII digits and nothing else; a value outside the `int` range is an error.
`none` stands for the returned error. -/
def Atoi (s : String) : Option Int :=
  match s.data with
  | [] => none
  | c :: rest =>
    let neg := decide (c = '-')
    let ds := if c = '-' ∨ c = '+' then rest else c :: rest
    if ds.isEmpty then none
    else if ds.all Char.isDigit then
      let z : Int := if neg then -(decValue ds : Int) else (decValue ds : Int)
      if intMin ≤ z ∧ z ≤ intMax then some z else none
    else none

/-! ## Library models: `path/filepath` -/

/-- Splits a path at every `/`. -/
def splitSlash : List Char → List (List Char)
  | [] => [[]]
  | c :: cs =>
    if c = '/' then [] :: splitSlash cs
    else
      match splitSlash cs with
      | [] => [[c]]
      | h :: t => (c :: h) :: t

/-- Joins path components with `/`. -/
def joinSlash : List (List Char) → List Char
  | [] => []
  | [x] => x
  | x :: y :: r => x ++ '/' :: joinSlash (y :: r)

/-- One step of the lexical processing of `filepath.Clean`: `st` is the stack
of the components kept so far, the last one first. Empty components and `.`
are dropped; `..` removes the last kept real component, is kept at the front
of a relative path, and is dropped at the root. -/
def cleanStep (rooted : Bool) (st : List (List Char)) (comp : List Char) : List (List Char) :=
  if comp = [] ∨ comp = ['.'] then st
  else if comp = ['.', '.'] then
    match st with
    | top :: below => if top = ['.', '.'] then comp :: st else below
    | [] => if rooted then [] else [comp]
  else comp :: st

/-- Go `filepath.Clean` on a Unix path. -/
def Clean (path : List Char) : List Char :=
  match path with
  | [] => ['.']
  | c :: _ =>
    let rooted := decide (c = '/')
    let st := (splitSlash path).foldl (cleanStep rooted) []
    if rooted then '/' :: joinSlash st.reverse
    else if st.isEmpty then ['.'] else joinSlash st.reverse

/-- Go `filepath.Join` of two elements: empty elements are ignored, the rest
is joined with `/` and cleaned; the result is empty when both are empty. -/
def filepathJoin (a b : String) : String :=
  if a.data ≠ [] then String.mk (Clean (a.data ++ '/' :: b.data))
  else if b.data ≠ [] then String.mk (Clean b.data)
  else ""

/-! ## Library models: the fragment of `regexp` used by the program

The three patterns of the program are concatenations of single-character
classes, one greedy star `[^>]*` and one lazy capture group `(.*?)`. Matching is
leftmost-first: the match found is the one a backtracking search finds first,
which is what Go's `regexp` returns. -/

/-- A single-character class. -/
inductive CharSet where
  /-- A literal character. -/
  | lit (c : Char)
  /-- The dot: any character but a newline. -/
  | dot
  /-- A negated one-character class such as `[^>]` (it matches a newline). -/
  | notChar (c : Char)
  /-- A class listing its members, such as the two quotes. -/
  | oneOf (cs : List Char)
  /-- The negated ASCII class `[^[:alnum:]]`. -/
  | notAlnum
  deriving DecidableEq, Repr

/-- Membership of a character in a class. -/
def CharSet.test : CharSet → Char → Bool
  | .lit c, x => x = c
  | .dot, x => x ≠ '\n'
  | .notChar c, x => x ≠ c
  | .oneOf cs, x => cs.contains x
  | .notAlnum, x => !x.isAlphanum

/-- One item of a pattern. -/
inductive Tok where
  /-- One character of the class. -/
  | one (cs : CharSet)
  /-- Greedy repetition `x*` of the class. -/
  | star (cs : CharSet)
  /-- Capture group `(x*?)`: lazy repetition of the class, recorded as group 1. -/
  | capLazy (cs : CharSet)
  deriving DecidableEq, Repr

/-- Greedy star: takes as many characters of the class as possible, giving one
back at a time until the continuation `k` matches. -/
def starLoop (cs : CharSet) (k : List Char → Option (List Char × List Char)) :
    List Char → Option (List Char × List Char)
  | [] => k []
  | x :: s =>
    if cs.test x then
      match starLoop cs k s with
      | some r => some r
      | none => k (x :: s)
    else k (x :: s)

/-- Lazy capture: tries the continuation `k` first and takes one more character
of the class only when it fails; `acc` is the text captured so far, reversed. -/
def lazyLoop (cs : CharSet) (k : List Char → Option (List Char × List Char))
    (acc : List Char) : List Char → Option (List Char × List Char)
  | [] => (k []).map (fun r => (acc.reverse, r.2))
  | x :: s =>
    match k (x :: s) with
    | some r => some (acc.reverse, r.2)
    | none => if cs.test x then lazyLoop cs k (x :: acc) s else none

/-- Anchored match of a pattern at the start of the input: the text of
capture group 1 (empty when the pattern has no group) and the input left
after the match. -/
def matchHere : List Tok → List Char → Option (List Char × List Char)
  | [], s => some ([], s)
  | .one cs :: ts, s =>
    match s with
    | [] => none
    | x :: r => if cs.test x then matchHere ts r else none
  | .star cs :: ts, s => starLoop cs (matchHere ts) s
  | .capLazy cs :: ts, s => lazyLoop cs (matchHere ts) [] s

/-- The scan of `FindAllStringSubmatch(s, -1)`: the group-1 text of each of
the successive non-overlapping matches, for a pattern that matches no empty
string. `skip` counts the characters of the last match still to be passed. -/
def findAllFrom (re : List Tok) : Nat → List Char → List (List Char)
  | _, [] => []
  | skip + 1, _ :: s => findAllFrom re skip s
  | 0, x :: s =>
    match matchHere re (x :: s) with
    | some (cap, rest) => cap :: findAllFrom re (s.length - rest.length) s
    | none => findAllFrom re 0 s

/-- The scan of `ReplaceAllString(s, repl)` for a pattern that matches no
empty string: every match is replaced by `repl`, the other characters are kept. -/
def replaceAllFrom (re : List Tok) (repl : List Char) : Nat → List Char → List Char
  | _, [] => []
  | skip + 1, _ :: s => replaceAllFrom re repl skip s
  | 0, x :: s =>
    match matchHere re (x :: s) with
    | some (_, rest) => repl ++ replaceAllFrom re repl (s.length - rest.length) s
    | none => x :: replaceAllFrom re repl 0 s

/-- The pattern text of a CSS-like selector spliced into a regular expression:
a `.` is the dot, every other character of the selectors of the program
(letters, digits, `-` and the space) stands for itself. -/
def selectorToks (selector : String) : List Tok :=
  selector.data.map (fun c => if c = '.' then Tok.one CharSet.dot else Tok.one (CharSet.lit c))

/-- The two quote characters of the class `["']`. -/
def quoteChars : List Char := [Char.ofNat 34, Char.ofNat 39]

/-! ## The pure functions of `main.go` -/

/-- `extractTextBySelector`: group 1 of every match of
`<SELECTOR[^>]*>(.*?)</SELECTOR>`. -/
def extractTextBySelector (html selector : String) : List String :=
  let re := Tok.one (CharSet.lit '<') :: selectorToks selector ++
    [Tok.star (CharSet.notChar '>'), Tok.one (CharSet.lit '>'), Tok.capLazy CharSet.dot,
      Tok.one (CharSet.lit '<'), Tok.one (CharSet.lit '/')] ++
    selectorToks selector ++ [Tok.one (CharSet.lit '>')]
  (findAllFrom re 0 html.data).map String.mk

/-- `extractAttrBySelector`: group 1 of every match of
`<SELECTOR[^>]*ATTR=["'](.*?)["']`. -/
def extractAttrBySelector (html selector attrName : String) : List String :=
  let re := Tok.one (CharSet.lit '<') :: selectorToks selector ++
    [Tok.star (CharSet.notChar '>')] ++ attrName.data.map (fun c => Tok.one (CharSet.lit c)) ++
    [Tok.one (CharSet.lit '='), Tok.one (CharSet.oneOf quoteChars), Tok.capLazy CharSet.dot,
      Tok.one (CharSet.oneOf quoteChars)]
  (findAllFrom re 0 html.data).map String.mk

/-- `normalizeString`: every match of `[^[:alnum:]]` replaced by the empty string. -/
def normalizeString (str : String) : String :=
  String.mk (replaceAllFrom [Tok.one CharSet.notAlnum] [] 0 str.data)

/-- The file name `fmt.Sprintf("%s-%d.cbz", mangaName, chapterNumber)`. -/
def archiveName (mangaName : String) (chapterNumber : Int) : String :=
  mangaName ++ "-" ++ Itoa chapterNumber ++ ".cbz"

/-- The file name `fmt.Sprintf("%s-%d-%d.jpg", mangaName, chapterNumber, i)`. -/
def pageName (mangaName : String) (chapterNumber : Int) (i : Nat) : String :=
  mangaName ++ "-" ++ Itoa chapterNumber ++ "-" ++ Itoa (Int.ofNat i) ++ ".jpg"

/-- The path of the archive of a chapter, as `getImages`, `createFile` and
`createMangaFile` compute it:
`filepath.Join(imageDir, fmt.Sprintf("%s-%d.cbz", mangaName, chapterNumber))`. -/
def archivePath (imageDir mangaName : String) (chapterNumber : Int) : String :=
  filepathJoin imageDir (archiveName mangaName chapterNumber)

/-- The path of page `i` of a chapter, as `createFile` and `createMangaFile` compute it:
`filepath.Join(imageDir, fmt.Sprintf("%s-%d-%d.jpg", mangaName, chapterNumber, i))`. -/
def pagePath (imageDir mangaName : String) (chapterNumber : Int) (i : Nat) : String :=
  filepathJoin imageDir (pageName mangaName chapterNumber i)

/-! ## Effects -/

/-- A Go `error`, identified by the call that returned it. -/
inductive GoErr where
  | httpGet (url : String)
  | readAll (url : String)
  | mkdirAll (dir : String)
  | create (path : String)
  | copy (path : String)
  | run (args : List String)
  deriving DecidableEq, Repr

/-- One call of the program into its environment, with what the call returned. -/
inductive Event where
  /-- Text written to the terminal: `fmt.Print`, `fmt.Println`, `fmt.Printf`. -/
  | print (text : String)
  /-- A line read from the terminal: `reader.ReadString`. -/
  | readLine (line : String)
  /-- The call `os.UserHomeDir()`; `none` is an error. -/
  | userHomeDir (home : Option String)
  /-- The call `os.Stat(path)`; `found` says that it returned no error. -/
  | stat (path : String) (found : Bool)
  /-- The call `http.Get(url)`; `none` is an error, `some body` a response with that body. -/
  | httpGet (url : String) (body : Option String)
  /-- The call `ioutil.ReadAll` on the body of the response to `url`. -/
  | readAll (url : String) (ok : Bool)
  /-- The call `os.MkdirAll(dir, os.ModePerm)`. -/
  | mkdirAll (dir : String) (ok : Bool)
  /-- The call `os.Create(path)`. -/
  | create (path : String) (ok : Bool)
  /-- The call `io.Copy(file, resp.Body)`: `body` written to the file at `path`. -/
  | copy (path : String) (body : String) (ok : Bool)
  /-- An external command run to completion: `exec.Command(args...)`, with
  working directory `dir` (empty: the current one), then `Run()`. -/
  | run (args : List String) (dir : String) (ok : Bool)
  deriving DecidableEq, Repr

/-- The environment of the program: every operation may read and change the
state `W` of the world. -/
structure Sys (W : Type) where
  readLine : W → String × W
  userHomeDir : W → Option String × W
  stat : String → W → Bool × W
  httpGet : String → W → Option String × W
  readAll : String → W → Bool × W
  mkdirAll : String → W → Bool × W
  create : String → W → Bool × W
  copy : String → String → W → Bool × W
  run : List String → String → W → Bool × W

/-- How a function body ends. -/
inductive Res (α : Type) where
  /-- It returns `a`. -/
  | ok (a : α)
  /-- The call `log.Fatal(msg, ...)`: the message is printed and the process exits with status 1. -/
  | fatal (msg : String)
  /-- The call `os.Exit(code)`. -/
  | exit (code : Int)
  /-- A run-time panic. -/
  | panic (msg : String)
  deriving DecidableEq, Repr

/-- The result of running a computation: how it ended, the calls it made in
order, and the world it left. -/
structure Out (W α : Type) where
  res : Res α
  trace : List Event
  world : W

/-- A computation of the program. -/
def Eff (W α : Type) : Type := W → Out W α

/-- Sequencing: the second computation runs only when the first one returns. -/
def Eff.bind {W α β : Type} (m : Eff W α) (f : α → Eff W β) : Eff W β := fun w =>
  match m w with
  | ⟨.ok a, t, w1⟩ => let o := f a w1; ⟨o.res, t ++ o.trace, o.world⟩
  | ⟨.fatal msg, t, w1⟩ => ⟨.fatal msg, t, w1⟩
  | ⟨.exit code, t, w1⟩ => ⟨.exit code, t, w1⟩
  | ⟨.panic msg, t, w1⟩ => ⟨.panic msg, t, w1⟩

instance {W : Type} : Monad (Eff W) where
  pure a := fun w => ⟨.ok a, [], w⟩
  bind := Eff.bind

/-- Ends the computation the way `r` says, without any call. -/
def finish {W α : Type} (r : Res α) : Eff W α := fun w => ⟨r, [], w⟩

/-- The call `log.Fatal(msg, ...)`. -/
def logFatal {W α : Type} (msg : String) : Eff W α := finish (.fatal msg)

/-- One call into the environment: `op` is the operation and `ev` the event logged for its result. -/
def perform {W α : Type} (op : W → α × W) (ev : α → Event) : Eff W α := fun w =>
  let r := op w
  ⟨.ok r.1, [ev r.1], r.2⟩

/-- The call `fmt.Print(text)`. -/
def print {W : Type} (text : String) : Eff W Unit := fun w => ⟨.ok (), [Event.print text], w⟩

/-- The call `fmt.Println(text)`. -/
def println {W : Type} (text : String) : Eff W Unit := print (text ++ "\n")

/-- The call `reader.ReadString` on a fresh reader of the standard input, its error ignored. -/
def readString {W : Type} (sys : Sys W) : Eff W String := perform sys.readLine Event.readLine

/-! ## The functions of `main.go` -/

/-- A call in tail position: the caller does nothing after it but return. -/
inductive Call where
  | selectChapter (mangaName mangaLink : String)
  | getImages (mangaName mangaLink : String) (chapterNumber : Int)
  | chooseNext (mangaName mangaLink : String) (chapterNumber : Int)
  deriving DecidableEq, Repr

/-- What a function body does last: a call in tail position, or a plain return to its caller. -/
inductive Control where
  | call (c : Call)
  | done
  deriving DecidableEq, Repr

/-- `getHomeDir`. -/
def getHomeDir {W : Type} (sys : Sys W) : Eff W String := do
  match ← perform sys.userHomeDir Event.userHomeDir with
  | some home => pure home
  | none => logFatal "Failed to get user home directory:"

/-- `fileExists`. -/
def fileExists {W : Type} (sys : Sys W) (path : String) : Eff W Bool :=
  perform (sys.stat path) (Event.stat path)

/-- `fetchHTML`: the body of the response, or the error of the request or of the read. -/
def fetchHTML {W : Type} (sys : Sys W) (url : String) : Eff W (Except GoErr String) := do
  match ← perform (sys.httpGet url) (Event.httpGet url) with
  | none => pure (.error (.httpGet url))
  | some body =>
    if ← perform (sys.readAll url) (Event.readAll url) then pure (.ok body)
    else pure (.error (.readAll url))

/-- `openFile`: runs the viewer on the file; its failure is fatal. -/
def openFile {W : Type} (sys : Sys W) (filePath : String) : Eff W Unit := do
  if ← perform (sys.run [zathuraCmd, filePath] "") (Event.run [zathuraCmd, filePath] "") then pure ()
  else logFatal "Failed to open manga file:"

/-- The argument list of the archive command that `createMangaFile` builds:
the command, the quiet flag, the output path, then the path of page `i` for
`i := 1; i <= len(imageLinks); i++`. -/
def zipArgs (imageLinks : List String) (imageDir mangaName : String) (chapterNumber : Int) :
    List String :=
  [zipCommand, "-q", archivePath imageDir mangaName chapterNumber] ++
    (List.range imageLinks.length).map (fun i => pagePath imageDir mangaName chapterNumber (i + 1))

/-- `createMangaFile`: runs the archive command in `imageDir`; `none` is the `nil` error. -/
def createMangaFile {W : Type} (sys : Sys W) (imageLinks : List String)
    (imageDir mangaName : String) (chapterNumber : Int) : Eff W (Option GoErr) := do
  let args := zipArgs imageLinks imageDir mangaName chapterNumber
  if ← perform (sys.run args imageDir) (Event.run args imageDir) then
    println (greenColor ++ "Manga file created successfully!")
    pure none
  else pure (some (.run args))

/-- The body of the download loop of `createFile` for the link at index `i`:
request, file creation, copy; the first error is returned. -/
def downloadPage {W : Type} (sys : Sys W) (imageDir mangaName : String) (chapterNumber : Int)
    (i : Nat) (link : String) : Eff W (Option GoErr) := do
  match ← perform (sys.httpGet link) (Event.httpGet link) with
  | none => pure (some (.httpGet link))
  | some body =>
    let imagePath := pagePath imageDir mangaName chapterNumber (i + 1)
    if ← perform (sys.create imagePath) (Event.create imagePath) then
      if ← perform (sys.copy imagePath body) (Event.copy imagePath body) then pure none
      else pure (some (.copy imagePath))
    else pure (some (.create imagePath))

/-- The download loop of `createFile`, `for i, link := range imageLinks`, from index `i` on:
it stops at the first error. -/
def downloadPages {W : Type} (sys : Sys W) (imageDir mangaName : String) (chapterNumber : Int) :
    List String → Nat → Eff W (Option GoErr)
  | [], _ => pure none
  | link :: rest, i => do
    match ← downloadPage sys imageDir mangaName chapterNumber i link with
    | some err => pure (some err)
    | none => downloadPages sys imageDir mangaName chapterNumber rest (i + 1)

/-- `createFile`: `none` is the `nil` error. -/
def createFile {W : Type} (sys : Sys W) (imageLinks : List String)
    (imageDir mangaName : String) (chapterNumber : Int) : Eff W (Option GoErr) := do
  if ← perform (sys.mkdirAll imageDir) (Event.mkdirAll imageDir) then
    println (greenColor ++ "Downloading images...")
    match ← downloadPages sys imageDir mangaName chapterNumber imageLinks 0 with
    | some err => pure (some err)
    | none =>
      println (greenColor ++ "Creating manga file...")
      match ← createMangaFile sys imageLinks imageDir mangaName chapterNumber with
      | some err => pure (some err)
      | none =>
        openFile sys (archivePath imageDir mangaName chapterNumber)
        pure none
  else pure (some (.mkdirAll imageDir))

/-- `getImages`. -/
def getImages {W : Type} (sys : Sys W) (mangaName mangaLink : String) (chapterNumber : Int) :
    Eff W Control := do
  let home ← getHomeDir sys
  let imageDir := filepathJoin home defaultImageDir
  let chapterLink := mangaLink ++ "/chapter-" ++ Itoa chapterNumber
  if ← fileExists sys (archivePath imageDir mangaName chapterNumber) then
    println (greenColor ++ "Manga file exists in cache, opening it...")
    openFile sys (archivePath imageDir mangaName chapterNumber)
    pure (.call (.chooseNext mangaName mangaLink chapterNumber))
  else
    match ← fetchHTML sys chapterLink with
    | .error _ => logFatal "Failed to fetch chapter HTML:"
    | .ok html =>
      let imageLinks := extractAttrBySelector html "div.container-chapter-reader img" "src"
      if imageLinks.length = 0 then logFatal "No images found for the chapter"
      else
        match ← createFile sys imageLinks imageDir mangaName chapterNumber with
        | some _ => logFatal "Failed to create manga file:"
        | none => pure .done

/-- `chooseNext`: the menu, one line of input, and the transition it selects. -/
def chooseNext {W : Type} (sys : Sys W) (mangaName mangaLink : String) (chapterNumber : Int) :
    Eff W Control := do
  println (whiteColor ++ "Next chapter (n)")
  println (whiteColor ++ "Quit (q)")
  println (whiteColor ++ "Previous chapter (p)")
  print (yellowColor ++ "Enter Option: ")
  let option := TrimSpace (← readString sys)
  if option = "n" then pure (.call (.getImages mangaName mangaLink (wrapInt (chapterNumber + 1))))
  else if option = "p" then
    pure (.call (.getImages mangaName mangaLink (wrapInt (chapterNumber - 1))))
  else if option = "q" then finish (.exit 0)
  else pure (.call (.chooseNext mangaName mangaLink chapterNumber))

/-- `selectChapter`. -/
def selectChapter {W : Type} (sys : Sys W) (mangaName mangaLink : String) : Eff W Control := do
  print (yellowColor ++ "Enter chapter number: ")
  let chapterNumberStr := TrimSpace (← readString sys)
  match Atoi chapterNumberStr with
  | none => logFatal "Invalid chapter number"
  | some chapterNumber =>
    if chapterNumber < 1 then logFatal "Invalid chapter number"
    else pure (.call (.getImages mangaName mangaLink chapterNumber))

/-- The selection made in `searchManga` (lines 89 to 98) from the two
extracted lists and the trimmed answer: the normalised name and the link handed
to `selectChapter`. -/
def pickManga (mangaNames mangaIDs : List String) (mangaNumberStr : String) :
    Res (String × String) :=
  match Atoi mangaNumberStr with
  | none => .fatal "Invalid manga number"
  | some mangaNumber =>
    if mangaNumber < 1 ∨ mangaNumber > (mangaIDs.length : Int) then .fatal "Invalid manga number"
    else
      match mangaNames[(mangaNumber - 1).toNat]? with
      | none => .panic "index out of range"
      | some name =>
        let mangaName := normalizeString (ReplaceAll name ' ' '_')
        match mangaIDs[(mangaNumber - 1).toNat]? with
        | none => .panic "index out of range"
        | some mangaLink => .ok (mangaName, mangaLink)

/-- The lines `[i+1] name` that `searchManga` prints for the names from index `i` on. -/
def printNames {W : Type} : List String → Nat → Eff W Unit
  | [], _ => pure ()
  | name :: rest, i => do
    print ("[" ++ Itoa (Int.ofNat (i + 1)) ++ "] " ++ name ++ "\n")
    printNames rest (i + 1)

/-- `searchManga`. -/
def searchManga {W : Type} (sys : Sys W) : Eff W Control := do
  print (yellowColor ++ "Search manga: ")
  let mangaName := TrimSpace (← readString sys)
  let mangaName := ReplaceAll mangaName ' ' '_'
  let mangaName := ReplaceAll mangaName '-' '_'
  let mangaURL := searchURL ++ mangaName
  match ← perform (sys.httpGet mangaURL) (Event.httpGet mangaURL) with
  | none => logFatal "Failed to search manga:"
  | some body =>
    if ← perform (sys.readAll mangaURL) (Event.readAll mangaURL) then
      let mangaNames := extractTextBySelector body "div.item-right h3 a"
      let mangaIDs := extractAttrBySelector body "div.item-right h3 a" "href"
      if mangaNames.length = 0 then logFatal "No manga found for the given search terms"
      else
        println (whiteColor ++ "Search results:")
        printNames mangaNames 0
        print (yellowColor ++ "Enter Number: ")
        let mangaNumberStr := TrimSpace (← readString sys)
        let (mangaName, mangaLink) ← finish (pickManga mangaNames mangaIDs mangaNumberStr)
        pure (.call (.selectChapter mangaName mangaLink))
    else logFatal "Failed to read search response:"

/-! ## A scripted world

A concrete environment for evaluating the program: the terminal input is the
list of lines still to be read, the other operations answer from fixed tables. -/

/-- The scripted environment: `home` is the home directory, `cached` the files
that exist, `web` the answers of the HTTP server, `writable` the files that can
be created, and `runs` the external commands that succeed. -/
def scripted (home : Option String) (cached : String → Bool) (web : String → Option String)
    (writable : String → Bool) (runs : List String → Bool) : Sys (List String) where
  readLine := fun w => (w.headD "", w.tail)
  userHomeDir := fun w => (home, w)
  stat := fun path w => (cached path, w)
  httpGet := fun url w => (web url, w)
  readAll := fun _ w => (true, w)
  mkdirAll := fun _ w => (true, w)
  create := fun path w => (writable path, w)
  copy := fun _ _ w => (true, w)
  run := fun args _ w => (runs args, w)

/-! ## Classification of events -/

/-- The event is an HTTP request. -/
def Event.isHttp : Event → Bool
  | .httpGet _ _ => true
  | _ => false

/-- The event creates a directory or a file, or writes to a file. -/
def Event.isWrite : Event → Bool
  | .mkdirAll _ _ => true
  | .create _ _ => true
  | .copy _ _ _ => true
  | _ => false

/-- The event runs the external command `cmd`. -/
def Event.runs (cmd : String) : Event → Bool
  | .run args _ _ => args.head? = some cmd
  | _ => false

/-! ## Vocabulary of the statements -/

section Vocabulary

variable {W : Type}

/-- The calls of the download loop when every page succeeds: for the link at
index `i`, the request, the creation of the page file `i + 1` and the copy of
the body of the response into it. -/
def pageEvents (imageDir mangaName : String) (chapterNumber : Int) :
    List String → List String → Nat → List Event
  | link :: links, body :: bodies, i =>
    Event.httpGet link (some body) ::
      Event.create (pagePath imageDir mangaName chapterNumber (i + 1)) true ::
      Event.copy (pagePath imageDir mangaName chapterNumber (i + 1)) body true ::
      pageEvents imageDir mangaName chapterNumber links bodies (i + 1)
  | _, _, _ => []

/-- The URL and the body of a successful request. -/
def Event.fetched : Event → Option (String × String)
  | .httpGet url (some body) => some (url, body)
  | _ => none

/-- The URL of a request, whatever its result. -/
def Event.requested : Event → Option String
  | .httpGet url _ => some url
  | _ => none

/-- The path and the content of a file written in full. -/
def Event.written : Event → Option (String × String)
  | .copy path body true => some (path, body)
  | _ => none

/-- The environment serves every page of `links`, from index `i` on: in the
state where the loop reaches it, each request answers with a body (collected
in `bodies`), each page file is created and each copy completes. The loop
starts in world `w` and leaves world `w4`. -/
inductive PagesOk (sys : Sys W) (imageDir mangaName : String) (chapterNumber : Int) :
    List String → Nat → List String → W → W → Prop where
  | nil (i : Nat) (w : W) : PagesOk sys imageDir mangaName chapterNumber [] i [] w w
  | cons {link body : String} {links bodies : List String} {i : Nat} {w w1 w2 w3 w4 : W}
      (hget : sys.httpGet link w = (some body, w1))
      (hcreate : sys.create (pagePath imageDir mangaName chapterNumber (i + 1)) w1 = (true, w2))
      (hcopy : sys.copy (pagePath imageDir mangaName chapterNumber (i + 1)) body w2 = (true, w3))
      (hrest : PagesOk sys imageDir mangaName chapterNumber links (i + 1) bodies w3 w4) :
      PagesOk sys imageDir mangaName chapterNumber (link :: links) i (body :: bodies) w w4

/-- The page of `link` at index `i` fails in world `w`: the request fails, or
the page file cannot be created, or the copy breaks off. `err` is the error,
`evs` the calls made and `w3` the world left. -/
inductive PageFails (sys : Sys W) (imageDir mangaName : String) (chapterNumber : Int)
    (i : Nat) (link : String) : W → GoErr → List Event → W → Prop where
  | get {w w1 : W} (hget : sys.httpGet link w = (none, w1)) :
      PageFails sys imageDir mangaName chapterNumber i link w (GoErr.httpGet link)
        [Event.httpGet link none] w1
  | create {body : String} {w w1 w2 : W} (hget : sys.httpGet link w = (some body, w1))
      (hcreate : sys.create (pagePath imageDir mangaName chapterNumber (i + 1)) w1 = (false, w2)) :
      PageFails sys imageDir mangaName chapterNumber i link w
        (GoErr.create (pagePath imageDir mangaName chapterNumber (i + 1)))
        [Event.httpGet link (some body),
         Event.create (pagePath imageDir mangaName chapterNumber (i + 1)) false] w2
  | copy {body : String} {w w1 w2 w3 : W} (hget : sys.httpGet link w = (some body, w1))
      (hcreate : sys.create (pagePath imageDir mangaName chapterNumber (i + 1)) w1 = (true, w2))
      (hcopy : sys.copy (pagePath imageDir mangaName chapterNumber (i + 1)) body w2 = (false, w3)) :
      PageFails sys imageDir mangaName chapterNumber i link w
        (GoErr.copy (pagePath imageDir mangaName chapterNumber (i + 1)))
        [Event.httpGet link (some body),
         Event.create (pagePath imageDir mangaName chapterNumber (i + 1)) true,
         Event.copy (pagePath imageDir mangaName chapterNumber (i + 1)) body false] w3

/-- The decimal digits of `n`, least significant first, with `0` written `[0]`. -/
def decimal (n : Nat) : List Nat := if n = 0 then [0] else Nat.digits 10 n

/-- A plain file name: a single path component that `filepath.Clean` keeps as it is. -/
def Plain (e : List Char) : Prop := '/' ∉ e ∧ e ≠ [] ∧ e ≠ ['.'] ∧ e ≠ ['.', '.']

end Vocabulary

/-! ## Evaluation lemmas -/

section Evaluation

variable {W : Type}

theorem bind_apply {α β : Type} (m : Eff W α) (f : α → Eff W β) (w : W) :
    (m >>= f) w = Eff.bind m f w := rfl

theorem pure_apply {α : Type} (a : α) (w : W) : (pure a : Eff W α) w = ⟨.ok a, [], w⟩ := rfl

theorem viewer_ne_zip : zathuraCmd ≠ zipCommand := by decide

end Evaluation

/-! ## The cache check of `getImages` -/

section GetImages

variable {W : Type}

/-- C2. Cache hit: when the home directory is `home` and the archive exists at
the cache path, `getImages` makes exactly three calls, the home lookup, the
existence check and the viewer on exactly that path (with one message printed
in between); when the viewer returns without error the body ends with the call
of `chooseNext` on the same name, link and chapter, otherwise with the fatal
error of `openFile`. No call is an HTTP request, a directory or file creation,
a write, or a run of the archive command. -/
theorem getImages_cache_hit (sys : Sys W) (mangaName mangaLink : String) (chapterNumber : Int)
    (home : String) (viewed : Bool) (w w1 w2 w3 : W)
    (hhome : sys.userHomeDir w = (some home, w1))
    (hstat : sys.stat (archivePath (filepathJoin home defaultImageDir) mangaName chapterNumber) w1
      = (true, w2))
    (hview : sys.run
      [zathuraCmd, archivePath (filepathJoin home defaultImageDir) mangaName chapterNumber] "" w2
      = (viewed, w3)) :
    (getImages sys mangaName mangaLink chapterNumber w).trace =
        [Event.userHomeDir (some home),
         Event.stat (archivePath (filepathJoin home defaultImageDir) mangaName chapterNumber) true,
         Event.print (greenColor ++ "Manga file exists in cache, opening it..." ++ "\n"),
         Event.run
           [zathuraCmd, archivePath (filepathJoin home defaultImageDir) mangaName chapterNumber]
           "" viewed] ∧
      (getImages sys mangaName mangaLink chapterNumber w).res =
        (if viewed then Res.ok (Control.call (Call.chooseNext mangaName mangaLink chapterNumber))
         else Res.fatal "Failed to open manga file:") ∧
      (getImages sys mangaName mangaLink chapterNumber w).world = w3 ∧
      ∀ e ∈ (getImages sys mangaName mangaLink chapterNumber w).trace,
        e.isHttp = false ∧ e.isWrite = false ∧ e.runs zipCommand = false := by
  cases viewed <;>
    simp [getImages, getHomeDir, fileExists, openFile, println, bind_apply, pure_apply, Eff.bind,
      perform, print, logFatal, finish, hhome, hstat, hview, Event.isHttp, Event.isWrite,
      Event.runs, viewer_ne_zip]

/-- Witness of C2: the archive of chapter 3 is in the cache of the scripted world. -/
theorem getImages_cache_hit_witness :
    (getImages (scripted (some "/home/u") (fun _ => true) (fun _ => none) (fun _ => false)
        (fun _ => true)) "OnePiece" "https://m.manganelo.com/manga-aa" 3 ["n"]).res =
      Res.ok (Control.call (Call.chooseNext "OnePiece" "https://m.manganelo.com/manga-aa" 3)) :=
  (getImages_cache_hit (scripted (some "/home/u") (fun _ => true) (fun _ => none)
    (fun _ => false) (fun _ => true)) "OnePiece" "https://m.manganelo.com/manga-aa" 3 "/home/u"
    true ["n"] ["n"] ["n"] ["n"] rfl rfl rfl).2.1

/-- C9. Empty page list: on a cache miss, when the chapter page is fetched and
no image link is extracted from it, `getImages` ends with the fatal error
"No images found for the chapter" after exactly four calls: the home lookup, the
existence check, the request of the chapter page and the read of its body. No
directory or file is created, no page is requested, no command is run. -/
theorem getImages_no_pages (sys : Sys W) (mangaName mangaLink : String) (chapterNumber : Int)
    (home html : String) (w w1 w2 w3 w4 : W)
    (hhome : sys.userHomeDir w = (some home, w1))
    (hstat : sys.stat (archivePath (filepathJoin home defaultImageDir) mangaName chapterNumber) w1
      = (false, w2))
    (hget : sys.httpGet (mangaLink ++ "/chapter-" ++ Itoa chapterNumber) w2 = (some html, w3))
    (hread : sys.readAll (mangaLink ++ "/chapter-" ++ Itoa chapterNumber) w3 = (true, w4))
    (hnone : extractAttrBySelector html "div.container-chapter-reader img" "src" = []) :
    getImages sys mangaName mangaLink chapterNumber w =
        ⟨Res.fatal "No images found for the chapter",
         [Event.userHomeDir (some home),
          Event.stat (archivePath (filepathJoin home defaultImageDir) mangaName chapterNumber)
            false,
          Event.httpGet (mangaLink ++ "/chapter-" ++ Itoa chapterNumber) (some html),
          Event.readAll (mangaLink ++ "/chapter-" ++ Itoa chapterNumber) true],
         w4⟩ ∧
      ∀ e ∈ (getImages sys mangaName mangaLink chapterNumber w).trace,
        e.isWrite = false ∧ (∀ cmd, e.runs cmd = false) ∧
          (e.isHttp = true →
            e = Event.httpGet (mangaLink ++ "/chapter-" ++ Itoa chapterNumber) (some html)) := by
  simp [getImages, getHomeDir, fileExists, fetchHTML, bind_apply, pure_apply, Eff.bind,
    perform, logFatal, finish, hhome, hstat, hget, hread, hnone, Event.isHttp, Event.isWrite,
    Event.runs]

/-- Witness of C9: the chapter page of the scripted world holds no image. -/
theorem getImages_no_pages_witness :
    (getImages (scripted (some "/home/u") (fun _ => false)
        (fun _ => some "<html><body>not a chapter</body></html>") (fun _ => true)
        (fun _ => true)) "OnePiece" "https://m.manganelo.com/manga-aa" 0 []).res =
      Res.fatal "No images found for the chapter" :=
  congrArg Out.res (getImages_no_pages (scripted (some "/home/u") (fun _ => false)
    (fun _ => some "<html><body>not a chapter</body></html>") (fun _ => true) (fun _ => true))
    "OnePiece" "https://m.manganelo.com/manga-aa" 0 "/home/u"
    "<html><body>not a chapter</body></html>" [] [] [] [] [] rfl rfl rfl rfl (by decide)).1

/-- On a cache miss the body of `getImages` never ends with a call in tail
position: whatever the environment answers, it ends with a fatal error or with
a plain return to its caller. -/
theorem getImages_miss_res (sys : Sys W) (mangaName mangaLink : String) (chapterNumber : Int)
    (home : String) (w w1 w2 : W)
    (hhome : sys.userHomeDir w = (some home, w1))
    (hstat : sys.stat (archivePath (filepathJoin home defaultImageDir) mangaName chapterNumber) w1
      = (false, w2)) (c : Call) :
    (getImages sys mangaName mangaLink chapterNumber w).res ≠ Res.ok (Control.call c) := by
  cases hf : fetchHTML sys (mangaLink ++ "/chapter-" ++ Itoa chapterNumber) w2 with
  | mk r t w3 =>
    cases r with
    | ok a =>
      cases a with
      | error e =>
        simp [getImages, getHomeDir, fileExists, bind_apply, pure_apply, Eff.bind, perform,
          hhome, hstat, hf, logFatal, finish]
      | ok html =>
        by_cases hlen : extractAttrBySelector html "div.container-chapter-reader img" "src" = []
        · simp [getImages, getHomeDir, fileExists, bind_apply, pure_apply, Eff.bind, perform,
            hhome, hstat, hf, hlen, logFatal, finish]
        · cases hc : createFile sys
              (extractAttrBySelector html "div.container-chapter-reader img" "src")
              (filepathJoin home defaultImageDir) mangaName chapterNumber w3 with
          | mk r2 t2 w4 =>
            cases r2 with
            | ok a2 =>
              cases a2 <;>
                simp [getImages, getHomeDir, fileExists, bind_apply, pure_apply, Eff.bind,
                  perform, hhome, hstat, hf, hlen, hc, logFatal, finish]
            | fatal msg =>
              simp [getImages, getHomeDir, fileExists, bind_apply, pure_apply, Eff.bind,
                perform, hhome, hstat, hf, hlen, hc]
            | exit code =>
              simp [getImages, getHomeDir, fileExists, bind_apply, pure_apply, Eff.bind,
                perform, hhome, hstat, hf, hlen, hc]
            | panic msg =>
              simp [getImages, getHomeDir, fileExists, bind_apply, pure_apply, Eff.bind,
                perform, hhome, hstat, hf, hlen, hc]
    | fatal msg =>
      simp [getImages, getHomeDir, fileExists, bind_apply, pure_apply, Eff.bind, perform,
        hhome, hstat, hf]
    | exit code =>
      simp [getImages, getHomeDir, fileExists, bind_apply, pure_apply, Eff.bind, perform,
        hhome, hstat, hf]
    | panic msg =>
      simp [getImages, getHomeDir, fileExists, bind_apply, pure_apply, Eff.bind, perform,
        hhome, hstat, hf]

/-- C5, evaluated on the code. In the scripted world nothing is cached, the
chapter page lists one image and every call succeeds: `getImages` fetches,
downloads, packs and opens the archive in the viewer, and then returns to its
caller. Its body does not end with the call of `chooseNext`, and the input
line that is waiting is not read. -/
theorem getImages_miss_returns :
    (getImages (scripted (some "/home/u") (fun _ => false)
        (fun url => if url = "https://m.manganelo.com/manga-aa/chapter-1"
          then some "<div.container-chapter-reader img src=\x27https://cdn.example/p1.jpg\x27>"
          else some "JPEG")
        (fun _ => true) (fun _ => true)) "OnePiece" "https://m.manganelo.com/manga-aa" 1 ["n"]).res
        = Res.ok Control.done ∧
      Event.run [zathuraCmd, "/home/u/.cache/manga-cli/OnePiece-1.cbz"] "" true ∈
        (getImages (scripted (some "/home/u") (fun _ => false)
          (fun url => if url = "https://m.manganelo.com/manga-aa/chapter-1"
            then some "<div.container-chapter-reader img src=\x27https://cdn.example/p1.jpg\x27>"
            else some "JPEG")
          (fun _ => true) (fun _ => true)) "OnePiece" "https://m.manganelo.com/manga-aa" 1
          ["n"]).trace ∧
      (getImages (scripted (some "/home/u") (fun _ => false)
        (fun url => if url = "https://m.manganelo.com/manga-aa/chapter-1"
          then some "<div.container-chapter-reader img src=\x27https://cdn.example/p1.jpg\x27>"
          else some "JPEG")
        (fun _ => true) (fun _ => true)) "OnePiece" "https://m.manganelo.com/manga-aa" 1
        ["n"]).world = ["n"] := by
  decide

end GetImages

/-! ## The navigation menu -/

section ChooseNext

variable {W : Type}

/-- C4. Navigation transitions: `chooseNext` prints the menu and the prompt,
reads one line and makes no other call. On `n` its body ends with the one call
`getImages` on the same name and link and the chapter number incremented, which
is `N + 1`; on `p` with the one call `getImages` on the chapter number
decremented, which is `N - 1`, whatever its sign (there is no floor); on `q`
with `os.Exit(0)`; on any other line with the call of `chooseNext` on the same
name, link and chapter. The chapter number is a Go `int`: `++` and `--` give
`N + 1` and `N - 1` for every `N` but the largest, respectively the smallest,
value of the type. -/
theorem chooseNext_transitions (sys : Sys W) (mangaName mangaLink : String) (N : Int)
    (line : String) (w w1 : W) (hline : sys.readLine w = (line, w1)) :
    (chooseNext sys mangaName mangaLink N w).trace =
        [Event.print (whiteColor ++ "Next chapter (n)" ++ "\n"),
         Event.print (whiteColor ++ "Quit (q)" ++ "\n"),
         Event.print (whiteColor ++ "Previous chapter (p)" ++ "\n"),
         Event.print (yellowColor ++ "Enter Option: "),
         Event.readLine line] ∧
      (chooseNext sys mangaName mangaLink N w).world = w1 ∧
      (TrimSpace line = "n" →
        (chooseNext sys mangaName mangaLink N w).res =
            Res.ok (Control.call (Call.getImages mangaName mangaLink (wrapInt (N + 1)))) ∧
          (intMin ≤ N → N < intMax →
            (chooseNext sys mangaName mangaLink N w).res =
              Res.ok (Control.call (Call.getImages mangaName mangaLink (N + 1))))) ∧
      (TrimSpace line = "p" →
        (chooseNext sys mangaName mangaLink N w).res =
            Res.ok (Control.call (Call.getImages mangaName mangaLink (wrapInt (N - 1)))) ∧
          (intMin < N → N ≤ intMax →
            (chooseNext sys mangaName mangaLink N w).res =
              Res.ok (Control.call (Call.getImages mangaName mangaLink (N - 1))))) ∧
      (TrimSpace line = "q" → (chooseNext sys mangaName mangaLink N w).res = Res.exit 0) ∧
      (TrimSpace line ≠ "n" → TrimSpace line ≠ "p" → TrimSpace line ≠ "q" →
        (chooseNext sys mangaName mangaLink N w).res =
          Res.ok (Control.call (Call.chooseNext mangaName mangaLink N))) := by
  have hup : intMin ≤ N → N < intMax → wrapInt (N + 1) = N + 1 := by
    intro h1 h2
    simp only [intMin, intMax, wrapInt] at *
    omega
  have hdown : intMin < N → N ≤ intMax → wrapInt (N - 1) = N - 1 := by
    intro h1 h2
    simp only [intMin, intMax, wrapInt] at *
    omega
  have hpn : ("p" : String) ≠ "n" := by decide
  have hqn : ("q" : String) ≠ "n" := by decide
  have hqp : ("q" : String) ≠ "p" := by decide
  have hn : TrimSpace line = "n" → (chooseNext sys mangaName mangaLink N w).res =
      Res.ok (Control.call (Call.getImages mangaName mangaLink (wrapInt (N + 1)))) := by
    intro h
    simp [chooseNext, println, print, readString, perform, bind_apply, pure_apply, Eff.bind,
      finish, hline, h]
  have hp : TrimSpace line = "p" → (chooseNext sys mangaName mangaLink N w).res =
      Res.ok (Control.call (Call.getImages mangaName mangaLink (wrapInt (N - 1)))) := by
    intro h
    simp [chooseNext, println, print, readString, perform, bind_apply, pure_apply, Eff.bind,
      finish, hline, h, hpn]
  refine ⟨?_, ?_, ?_, ?_, ?_, ?_⟩
  · by_cases h1 : TrimSpace line = "n" <;> by_cases h2 : TrimSpace line = "p" <;>
      by_cases h3 : TrimSpace line = "q" <;>
      simp [chooseNext, println, print, readString, perform, bind_apply, pure_apply, Eff.bind,
        finish, hline, h1, h2, h3]
  · by_cases h1 : TrimSpace line = "n" <;> by_cases h2 : TrimSpace line = "p" <;>
      by_cases h3 : TrimSpace line = "q" <;>
      simp [chooseNext, println, print, readString, perform, bind_apply, pure_apply, Eff.bind,
        finish, hline, h1, h2, h3]
  · intro h
    refine ⟨hn h, ?_⟩
    intro hlo hhi
    rw [hn h, hup hlo hhi]
  · intro h
    refine ⟨hp h, ?_⟩
    intro hlo hhi
    rw [hp h, hdown hlo hhi]
  · intro h
    simp [chooseNext, println, print, readString, perform, bind_apply, pure_apply, Eff.bind,
      finish, hline, h, hqn, hqp]
  · intro h1 h2 h3
    simp [chooseNext, println, print, readString, perform, bind_apply, pure_apply, Eff.bind,
      finish, hline, h1, h2, h3]

/-- Witness of C4: the answer `p` at chapter 1 of the scripted world leads to chapter 0. -/
theorem chooseNext_transitions_witness :
    (chooseNext (scripted none (fun _ => false) (fun _ => none) (fun _ => false)
        (fun _ => false)) "OnePiece" "https://m.manganelo.com/manga-aa" 1 ["p"]).res =
      Res.ok (Control.call (Call.getImages "OnePiece" "https://m.manganelo.com/manga-aa" 0)) :=
  ((chooseNext_transitions (scripted none (fun _ => false) (fun _ => none) (fun _ => false)
    (fun _ => false)) "OnePiece" "https://m.manganelo.com/manga-aa" 1 "p" ["p"] [] rfl).2.2.2.1
    (by decide)).2 (by decide) (by decide)

end ChooseNext

/-! ## The download loop and the archive -/

section CreateFile

variable {W : Type}

theorem PagesOk.length_eq {sys : Sys W} {imageDir mangaName : String} {chapterNumber : Int}
    {links bodies : List String} {i : Nat} {w w4 : W}
    (h : PagesOk sys imageDir mangaName chapterNumber links i bodies w w4) :
    bodies.length = links.length := by
  induction h with
  | nil => rfl
  | cons _ _ _ _ ih => simp [ih]

theorem downloadPages_ok {sys : Sys W} {imageDir mangaName : String} {chapterNumber : Int}
    {links bodies : List String} {i : Nat} {w w4 : W}
    (h : PagesOk sys imageDir mangaName chapterNumber links i bodies w w4) :
    downloadPages sys imageDir mangaName chapterNumber links i w =
      ⟨Res.ok none, pageEvents imageDir mangaName chapterNumber links bodies i, w4⟩ := by
  induction h with
  | nil i w => rfl
  | cons hget hcreate hcopy _ ih =>
    simp [downloadPages, downloadPage, pageEvents, bind_apply, pure_apply, Eff.bind, perform,
      hget, hcreate, hcopy, ih]

theorem downloadPage_fails {sys : Sys W} {imageDir mangaName : String} {chapterNumber : Int}
    {i : Nat} {link : String} {w w3 : W} {err : GoErr} {evs : List Event}
    (h : PageFails sys imageDir mangaName chapterNumber i link w err evs w3) :
    downloadPage sys imageDir mangaName chapterNumber i link w = ⟨Res.ok (some err), evs, w3⟩ := by
  cases h with
  | get hget => simp [downloadPage, bind_apply, pure_apply, Eff.bind, perform, hget]
  | create hget hcreate =>
    simp [downloadPage, bind_apply, pure_apply, Eff.bind, perform, hget, hcreate]
  | copy hget hcreate hcopy =>
    simp [downloadPage, bind_apply, pure_apply, Eff.bind, perform, hget, hcreate, hcopy]

theorem downloadPages_fails {sys : Sys W} {imageDir mangaName : String} {chapterNumber : Int}
    {before bodies : List String} {i : Nat} {w wp wf : W} {link : String} {err : GoErr}
    {evs : List Event} (after : List String)
    (hok : PagesOk sys imageDir mangaName chapterNumber before i bodies w wp)
    (hfail : PageFails sys imageDir mangaName chapterNumber (i + before.length) link wp err evs wf) :
    downloadPages sys imageDir mangaName chapterNumber (before ++ link :: after) i w =
      ⟨Res.ok (some err), pageEvents imageDir mangaName chapterNumber before bodies i ++ evs, wf⟩ := by
  induction hok with
  | nil i w =>
    simp only [List.length_nil, Nat.add_zero] at hfail
    simp [downloadPages, pageEvents, bind_apply, pure_apply, Eff.bind, downloadPage_fails hfail]
  | @cons link1 body links bodies i w w1 w2 w3 w4 hget hcreate hcopy _ ih =>
    have hfail2 : PageFails sys imageDir mangaName chapterNumber (i + 1 + links.length) link w4
        err evs wf := by
      have hidx : i + 1 + links.length = i + (link1 :: links).length := by
        simp only [List.length_cons]; omega
      rw [hidx]; exact hfail
    simp [downloadPages, downloadPage, pageEvents, bind_apply, pure_apply, Eff.bind, perform,
      hget, hcreate, hcopy, ih hfail2]

theorem pageEvents_fetched (imageDir mangaName : String) (chapterNumber : Int)
    (links bodies : List String) (i : Nat) :
    (pageEvents imageDir mangaName chapterNumber links bodies i).filterMap Event.fetched =
      links.zip bodies := by
  induction links generalizing bodies i with
  | nil => simp [pageEvents]
  | cons link links ih =>
    cases bodies with
    | nil => simp [pageEvents]
    | cons body bodies => simp [pageEvents, Event.fetched, ih]

theorem pageEvents_written (imageDir mangaName : String) (chapterNumber : Int)
    (links bodies : List String) (i : Nat) :
    (pageEvents imageDir mangaName chapterNumber links bodies i).filterMap Event.written =
      ((List.range links.length).map
        (fun j => pagePath imageDir mangaName chapterNumber (i + j + 1))).zip bodies := by
  induction links generalizing bodies i with
  | nil => simp [pageEvents]
  | cons link links ih =>
    cases bodies with
    | nil => simp [pageEvents]
    | cons body bodies =>
      simp only [pageEvents, List.length_cons, List.range_succ_eq_map, List.map_cons,
        List.map_map, List.zip_cons_cons, List.filterMap_cons, Event.written, Event.fetched, ih]
      simp only [Nat.add_zero, List.cons.injEq, true_and]
      congr 2
      funext j
      simp only [Function.comp, Nat.succ_eq_add_one]
      congr 1
      omega

theorem pageEvents_runs (imageDir mangaName : String) (chapterNumber : Int)
    (links bodies : List String) (i : Nat) (cmd : String) :
    ∀ e ∈ pageEvents imageDir mangaName chapterNumber links bodies i, e.runs cmd = false := by
  induction links generalizing bodies i with
  | nil => simp [pageEvents]
  | cons link links ih =>
    cases bodies with
    | nil => simp [pageEvents]
    | cons body bodies =>
      intro e he
      simp only [pageEvents, List.mem_cons] at he
      rcases he with rfl | rfl | rfl | he
      · rfl
      · rfl
      · rfl
      · exact ih bodies (i + 1) e he

theorem PageFails.runs {sys : Sys W} {imageDir mangaName : String} {chapterNumber : Int}
    {i : Nat} {link : String} {w wf : W} {err : GoErr} {evs : List Event}
    (h : PageFails sys imageDir mangaName chapterNumber i link w err evs wf) (cmd : String) :
    ∀ e ∈ evs, e.runs cmd = false := by
  cases h <;> simp [Event.runs]

theorem PageFails.written {sys : Sys W} {imageDir mangaName : String} {chapterNumber : Int}
    {i : Nat} {link : String} {w wf : W} {err : GoErr} {evs : List Event}
    (h : PageFails sys imageDir mangaName chapterNumber i link w err evs wf) :
    evs.filterMap Event.written = [] := by
  cases h <;> simp [Event.written]

theorem pageEvents_requested (imageDir mangaName : String) (chapterNumber : Int)
    (links bodies : List String) (i : Nat) (hlen : bodies.length = links.length) :
    (pageEvents imageDir mangaName chapterNumber links bodies i).filterMap Event.requested =
      links := by
  induction links generalizing bodies i with
  | nil => simp [pageEvents]
  | cons link links ih =>
    cases bodies with
    | nil => simp at hlen
    | cons body bodies =>
      simp only [List.length_cons, Nat.add_right_cancel_iff] at hlen
      simp [pageEvents, Event.requested, ih bodies (i + 1) hlen]

theorem PageFails.requested {sys : Sys W} {imageDir mangaName : String} {chapterNumber : Int}
    {i : Nat} {link : String} {w wf : W} {err : GoErr} {evs : List Event}
    (h : PageFails sys imageDir mangaName chapterNumber i link w err evs wf) :
    evs.filterMap Event.requested = [link] := by
  cases h <;> simp [Event.requested]

/-- C3. Order preservation: when the cache directory is made and every page of
`imageLinks` is served (`bodies` are the bodies of the responses, in order),
`createFile` requests the links in order and writes the body of the link at
position `i` (from 1) to the page path `i`; it then runs the archive command
exactly once, in `imageDir`, with the quiet flag, the archive path and then
exactly the page paths `1, 2, ..., N` in that order, which is the list of the
files written. After a successful packing it opens the archive in the viewer. -/
theorem createFile_order (sys : Sys W) (imageLinks bodies : List String)
    (imageDir mangaName : String) (chapterNumber : Int) (packed viewed : Bool)
    (w w1 w2 w3 w4 : W)
    (hmk : sys.mkdirAll imageDir w = (true, w1))
    (hpages : PagesOk sys imageDir mangaName chapterNumber imageLinks 0 bodies w1 w2)
    (hzip : sys.run ([zipCommand, "-q", archivePath imageDir mangaName chapterNumber] ++
        (List.range imageLinks.length).map
          (fun i => pagePath imageDir mangaName chapterNumber (i + 1))) imageDir w2
      = (packed, w3))
    (hview : sys.run [zathuraCmd, archivePath imageDir mangaName chapterNumber] "" w3
      = (viewed, w4)) :
    (createFile sys imageLinks imageDir mangaName chapterNumber w).trace =
        [Event.mkdirAll imageDir true, Event.print (greenColor ++ "Downloading images..." ++ "\n")]
          ++ pageEvents imageDir mangaName chapterNumber imageLinks bodies 0
          ++ [Event.print (greenColor ++ "Creating manga file..." ++ "\n"),
              Event.run ([zipCommand, "-q", archivePath imageDir mangaName chapterNumber] ++
                (List.range imageLinks.length).map
                  (fun i => pagePath imageDir mangaName chapterNumber (i + 1))) imageDir packed]
          ++ (if packed then
                [Event.print (greenColor ++ "Manga file created successfully!" ++ "\n"),
                 Event.run [zathuraCmd, archivePath imageDir mangaName chapterNumber] "" viewed]
              else []) ∧
      (createFile sys imageLinks imageDir mangaName chapterNumber w).trace.filterMap Event.fetched
        = imageLinks.zip bodies ∧
      (createFile sys imageLinks imageDir mangaName chapterNumber w).trace.filterMap Event.written
        = ((List.range imageLinks.length).map
            (fun i => pagePath imageDir mangaName chapterNumber (i + 1))).zip bodies ∧
      (createFile sys imageLinks imageDir mangaName chapterNumber w).trace.filter
          (Event.runs zipCommand)
        = [Event.run ([zipCommand, "-q", archivePath imageDir mangaName chapterNumber] ++
            ((createFile sys imageLinks imageDir mangaName chapterNumber w).trace.filterMap
              Event.written).map Prod.fst) imageDir packed] ∧
      bodies.length = imageLinks.length ∧
      (createFile sys imageLinks imageDir mangaName chapterNumber w).res =
        (if packed then (if viewed then Res.ok none else Res.fatal "Failed to open manga file:")
         else Res.ok (some (GoErr.run
           ([zipCommand, "-q", archivePath imageDir mangaName chapterNumber] ++
             (List.range imageLinks.length).map
               (fun i => pagePath imageDir mangaName chapterNumber (i + 1)))))) := by
  have hlen := hpages.length_eq
  have hzip2 := hzip
  simp only [List.cons_append, List.nil_append] at hzip2
  have htrace : (createFile sys imageLinks imageDir mangaName chapterNumber w).trace =
      [Event.mkdirAll imageDir true, Event.print (greenColor ++ "Downloading images..." ++ "\n")]
        ++ pageEvents imageDir mangaName chapterNumber imageLinks bodies 0
        ++ [Event.print (greenColor ++ "Creating manga file..." ++ "\n"),
            Event.run ([zipCommand, "-q", archivePath imageDir mangaName chapterNumber] ++
              (List.range imageLinks.length).map
                (fun i => pagePath imageDir mangaName chapterNumber (i + 1))) imageDir packed]
        ++ (if packed then
              [Event.print (greenColor ++ "Manga file created successfully!" ++ "\n"),
               Event.run [zathuraCmd, archivePath imageDir mangaName chapterNumber] "" viewed]
            else []) := by
    cases packed <;> cases viewed <;>
      simp [createFile, createMangaFile, zipArgs, openFile, println, print, bind_apply,
        pure_apply, Eff.bind, perform, logFatal, finish, hmk, downloadPages_ok hpages, hzip2, hview]
  have hwritten : (createFile sys imageLinks imageDir mangaName chapterNumber w).trace.filterMap
      Event.written = ((List.range imageLinks.length).map
        (fun i => pagePath imageDir mangaName chapterNumber (i + 1))).zip bodies := by
    rw [htrace]
    cases packed <;>
      simp [List.filterMap_append, pageEvents_written, Event.written]
  have hfst : (((List.range imageLinks.length).map
      (fun i => pagePath imageDir mangaName chapterNumber (i + 1))).zip bodies).map Prod.fst =
      (List.range imageLinks.length).map
        (fun i => pagePath imageDir mangaName chapterNumber (i + 1)) := by
    apply List.map_fst_zip
    simp [hlen]
  refine ⟨htrace, ?_, hwritten, ?_, hlen, ?_⟩
  · rw [htrace]
    cases packed <;>
      simp [List.filterMap_append, pageEvents_fetched, Event.fetched]
  · rw [hwritten, hfst, htrace]
    have hno := pageEvents_runs imageDir mangaName chapterNumber imageLinks bodies 0 zipCommand
    have hnone : (pageEvents imageDir mangaName chapterNumber imageLinks bodies 0).filter
        (Event.runs zipCommand) = [] := by
      rw [List.filter_eq_nil_iff]
      intro e he
      simp [hno e he]
    cases packed <;>
      simp [List.filter_append, hnone, Event.runs, viewer_ne_zip, List.filter_cons]
  · cases packed <;> cases viewed <;>
      simp [createFile, createMangaFile, zipArgs, openFile, println, print, bind_apply,
        pure_apply, Eff.bind, perform, logFatal, finish, hmk, downloadPages_ok hpages, hzip2, hview]

/-- Witness of C3: three pages served by the scripted world; the archive
command gets the page paths 1, 2, 3 in that order. -/
theorem createFile_order_witness :
    (createFile (scripted none (fun _ => false) (fun url => some url) (fun _ => true)
        (fun _ => true)) ["url1", "url2", "url3"] "/c" "OnePiece" 7 []).trace.filter
        (Event.runs zipCommand) =
      [Event.run ["zip", "-q", "/c/OnePiece-7.cbz", "/c/OnePiece-7-1.jpg",
        "/c/OnePiece-7-2.jpg", "/c/OnePiece-7-3.jpg"] "/c" true] :=
  (createFile_order (scripted none (fun _ => false) (fun url => some url) (fun _ => true)
    (fun _ => true)) ["url1", "url2", "url3"] ["url1", "url2", "url3"] "/c" "OnePiece" 7
    true true [] [] [] [] []
    rfl
    (PagesOk.cons rfl rfl rfl (PagesOk.cons rfl rfl rfl (PagesOk.cons rfl rfl rfl
      (PagesOk.nil 3 []))))
    rfl rfl).2.2.2.1

/-- When `createFile` returns an error on a cache miss, `getImages` makes no
further call and ends with the fatal error "Failed to create manga file:". -/
theorem getImages_createFile_error (sys : Sys W) (mangaName mangaLink : String)
    (chapterNumber : Int) (home html : String) (err : GoErr) (t : List Event)
    (w w1 w2 w3 w4 w5 : W)
    (hhome : sys.userHomeDir w = (some home, w1))
    (hstat : sys.stat (archivePath (filepathJoin home defaultImageDir) mangaName chapterNumber) w1
      = (false, w2))
    (hget : sys.httpGet (mangaLink ++ "/chapter-" ++ Itoa chapterNumber) w2 = (some html, w3))
    (hread : sys.readAll (mangaLink ++ "/chapter-" ++ Itoa chapterNumber) w3 = (true, w4))
    (hsome : extractAttrBySelector html "div.container-chapter-reader img" "src" ≠ [])
    (hcreate : createFile sys (extractAttrBySelector html "div.container-chapter-reader img" "src")
      (filepathJoin home defaultImageDir) mangaName chapterNumber w4 = ⟨Res.ok (some err), t, w5⟩) :
    getImages sys mangaName mangaLink chapterNumber w =
      ⟨Res.fatal "Failed to create manga file:",
       [Event.userHomeDir (some home),
        Event.stat (archivePath (filepathJoin home defaultImageDir) mangaName chapterNumber) false,
        Event.httpGet (mangaLink ++ "/chapter-" ++ Itoa chapterNumber) (some html),
        Event.readAll (mangaLink ++ "/chapter-" ++ Itoa chapterNumber) true] ++ t,
       w5⟩ := by
  simp [getImages, getHomeDir, fileExists, fetchHTML, bind_apply, pure_apply, Eff.bind,
    perform, logFatal, finish, hhome, hstat, hget, hread, hsome, hcreate]

/-- C8. A page failure aborts the chapter: when the cache directory is made,
the pages of `before` are served and the page of `link` (page `k`, with
`k = before.length + 1`) fails at its request, at the creation of its file or
at the copy, `createFile` returns that error and stops there. Its calls are
the directory creation, the calls of the pages before `k` and the calls of
page `k` up to the failing one: no link of `after` is requested, no command is
run (neither the archive command nor the viewer), and the files written are
the page files `1 .. k-1`, which no later call touches. On a cache miss
`getImages` then ends with a fatal error without any further call. -/
theorem createFile_page_failure (sys : Sys W) (before after bodies : List String) (link : String)
    (imageDir mangaName : String) (chapterNumber : Int) (err : GoErr) (evs : List Event)
    (w w1 w2 w3 : W)
    (hmk : sys.mkdirAll imageDir w = (true, w1))
    (hok : PagesOk sys imageDir mangaName chapterNumber before 0 bodies w1 w2)
    (hfail : PageFails sys imageDir mangaName chapterNumber before.length link w2 err evs w3) :
    createFile sys (before ++ link :: after) imageDir mangaName chapterNumber w =
        ⟨Res.ok (some err),
         [Event.mkdirAll imageDir true, Event.print (greenColor ++ "Downloading images..." ++ "\n")]
           ++ pageEvents imageDir mangaName chapterNumber before bodies 0 ++ evs,
         w3⟩ ∧
      (createFile sys (before ++ link :: after) imageDir mangaName chapterNumber w).trace.filterMap
          Event.requested = before ++ [link] ∧
      (∀ e ∈ (createFile sys (before ++ link :: after) imageDir mangaName chapterNumber w).trace,
        ∀ cmd, e.runs cmd = false) ∧
      (createFile sys (before ++ link :: after) imageDir mangaName chapterNumber w).trace.filterMap
          Event.written =
        ((List.range before.length).map
          (fun i => pagePath imageDir mangaName chapterNumber (i + 1))).zip bodies ∧
      (∀ (mangaLink home html : String) (v v1 v2 v3 : W),
        sys.userHomeDir v = (some home, v1) →
        sys.stat (archivePath (filepathJoin home defaultImageDir) mangaName chapterNumber) v1
          = (false, v2) →
        sys.httpGet (mangaLink ++ "/chapter-" ++ Itoa chapterNumber) v2 = (some html, v3) →
        sys.readAll (mangaLink ++ "/chapter-" ++ Itoa chapterNumber) v3 = (true, w) →
        extractAttrBySelector html "div.container-chapter-reader img" "src"
          = before ++ link :: after →
        imageDir = filepathJoin home defaultImageDir →
        (getImages sys mangaName mangaLink chapterNumber v).res =
            Res.fatal "Failed to create manga file:" ∧
          ∀ e ∈ (getImages sys mangaName mangaLink chapterNumber v).trace,
            ∀ cmd, e.runs cmd = false) := by
  have hlen := hok.length_eq
  have hfail0 : PageFails sys imageDir mangaName chapterNumber (0 + before.length) link w2 err
      evs w3 := by
    rw [Nat.zero_add]; exact hfail
  have hmain : createFile sys (before ++ link :: after) imageDir mangaName chapterNumber w =
      ⟨Res.ok (some err),
       [Event.mkdirAll imageDir true, Event.print (greenColor ++ "Downloading images..." ++ "\n")]
         ++ pageEvents imageDir mangaName chapterNumber before bodies 0 ++ evs,
       w3⟩ := by
    simp [createFile, println, print, bind_apply, pure_apply, Eff.bind, perform, hmk,
      downloadPages_fails after hok hfail0]
  have hruns : ∀ e ∈ ([Event.mkdirAll imageDir true,
      Event.print (greenColor ++ "Downloading images..." ++ "\n")]
        ++ pageEvents imageDir mangaName chapterNumber before bodies 0 ++ evs),
      ∀ cmd, e.runs cmd = false := by
    intro e he cmd
    simp only [List.mem_append, List.mem_cons, List.mem_singleton, List.not_mem_nil,
      or_false] at he
    rcases he with ((rfl | rfl) | he) | he
    · rfl
    · rfl
    · exact pageEvents_runs imageDir mangaName chapterNumber before bodies 0 cmd e he
    · exact hfail.runs cmd e he
  refine ⟨hmain, ?_, ?_, ?_, ?_⟩
  · rw [hmain]
    simp [List.filterMap_append, pageEvents_requested _ _ _ _ _ _ hlen, hfail.requested,
      Event.requested]
  · rw [hmain]
    exact hruns
  · rw [hmain]
    simp [List.filterMap_append, pageEvents_written, hfail.written, Event.written]
  · intro mangaLink home html v v1 v2 v3 hhome hstat hget hread hlinks hdir
    subst hdir
    have hsome : extractAttrBySelector html "div.container-chapter-reader img" "src" ≠ [] := by
      rw [hlinks]; simp
    have hg := getImages_createFile_error sys mangaName mangaLink chapterNumber home html err _
      v v1 v2 v3 w w3 hhome hstat hget hread hsome (by rw [hlinks]; exact hmain)
    rw [hg]
    refine ⟨rfl, ?_⟩
    intro e he cmd
    simp only [List.mem_append, List.mem_cons, List.mem_singleton, List.not_mem_nil,
      or_false] at he
    rcases he with (rfl | rfl | rfl | rfl) | he
    · rfl
    · rfl
    · rfl
    · rfl
    · exact hruns e (by simpa only [List.mem_append, List.mem_cons, List.mem_singleton,
        List.not_mem_nil, or_false] using he) cmd

/-- Witness of C8: the scripted world serves `url1` and refuses `url2`, the
second of three pages. -/
theorem createFile_page_failure_witness :
    (createFile (scripted none (fun _ => false)
        (fun url => if url = "url2" then none else some url) (fun _ => true) (fun _ => true))
        (["url1"] ++ "url2" :: ["url3"]) "/c" "OnePiece" 7 []).trace.filterMap Event.requested =
      ["url1"] ++ ["url2"] :=
  (createFile_page_failure (scripted none (fun _ => false)
    (fun url => if url = "url2" then none else some url) (fun _ => true) (fun _ => true))
    ["url1"] ["url3"] ["url1"] "url2" "/c" "OnePiece" 7 (GoErr.httpGet "url2")
    [Event.httpGet "url2" none] [] [] [] []
    rfl
    (PagesOk.cons rfl rfl rfl (PagesOk.nil 1 []))
    (PageFails.get rfl)).2.1

end CreateFile

/-! ## Decimal numerals -/

section Strings

theorem digitChar_inj : ∀ a < 10, ∀ b < 10, digitChar a = digitChar b → a = b := by decide

theorem digitChar_ne : ∀ d < 10, digitChar d ≠ '-' ∧ digitChar d ≠ '/' := by decide

theorem map_digitChar_inj : ∀ l1 l2 : List Nat, (∀ d ∈ l1, d < 10) → (∀ d ∈ l2, d < 10) →
    l1.map digitChar = l2.map digitChar → l1 = l2
  | [], [], _, _, _ => rfl
  | [], _ :: _, _, _, h => by simp at h
  | _ :: _, [], _, _, h => by simp at h
  | a :: l1, b :: l2, h1, h2, h => by
    simp only [List.map_cons, List.cons.injEq] at h
    have hab := digitChar_inj a (h1 a (by simp)) b (h2 b (by simp)) h.1
    have := map_digitChar_inj l1 l2 (fun d hd => h1 d (by simp [hd]))
      (fun d hd => h2 d (by simp [hd])) h.2
    rw [hab, this]

theorem decimal_lt (n : Nat) : ∀ d ∈ decimal n, d < 10 := by
  intro d hd
  unfold decimal at hd
  split at hd
  · simp at hd; omega
  · exact Nat.digits_lt_base (by norm_num) hd

theorem decimal_inj {m n : Nat} (h : decimal m = decimal n) : m = n := by
  unfold decimal at h
  by_cases hm : m = 0 <;> by_cases hn : n = 0
  · rw [hm, hn]
  · rw [if_pos hm, if_neg hn] at h
    have := Nat.getLast_digit_ne_zero 10 hn
    simp [← h] at this
  · rw [if_neg hm, if_pos hn] at h
    have := Nat.getLast_digit_ne_zero 10 hm
    simp [h] at this
  · rw [if_neg hm, if_neg hn] at h
    exact Nat.digits_inj_iff.mp h

theorem decDigits_eq (fuel n : Nat) (h : n < fuel) :
    decDigits fuel n = (decimal n).map digitChar := by
  induction fuel generalizing n with
  | zero => omega
  | succ f ih =>
    unfold decDigits decimal
    by_cases h10 : n < 10
    · simp only [h10, if_true]
      by_cases h0 : n = 0
      · simp [h0]
      · simp [h0, Nat.digits_of_lt 10 n h0 h10]
    · have hpos : n ≠ 0 := by omega
      have hd : n / 10 ≠ 0 := by omega
      have hlt : n / 10 < f := by omega
      rw [if_neg h10, ih _ hlt, if_neg hpos]
      unfold decimal
      rw [if_neg hd]
      conv_rhs => rw [Nat.digits_def' (by norm_num : 1 < 10) (by omega : 0 < n)]
      simp

theorem natToDec_eq (n : Nat) : natToDec n = ((decimal n).map digitChar).reverse := by
  unfold natToDec
  rw [decDigits_eq (n + 1) n (by omega)]

theorem natToDec_inj {m n : Nat} (h : natToDec m = natToDec n) : m = n := by
  rw [natToDec_eq, natToDec_eq] at h
  exact decimal_inj (map_digitChar_inj _ _ (decimal_lt m) (decimal_lt n) (List.reverse_injective h))

theorem natToDec_chars (n : Nat) : ∀ c ∈ natToDec n, c ≠ '-' ∧ c ≠ '/' := by
  intro c hc
  rw [natToDec_eq] at hc
  simp only [List.mem_reverse, List.mem_map] at hc
  obtain ⟨d, hd, rfl⟩ := hc
  exact digitChar_ne d (decimal_lt n d hd)

/-- The decimal formatting of integers is injective. -/
theorem Itoa_inj {a b : Int} (h : Itoa a = Itoa b) : a = b := by
  have hd := congrArg String.data h
  cases a with
  | ofNat m =>
    cases b with
    | ofNat n =>
      simp only [Itoa] at hd
      rw [natToDec_inj hd]
    | negSucc n =>
      simp only [Itoa] at hd
      have := (natToDec_chars m '-' (by rw [hd]; simp)).1
      exact absurd rfl this
  | negSucc m =>
    cases b with
    | ofNat n =>
      simp only [Itoa] at hd
      have := (natToDec_chars n '-' (by rw [← hd]; simp)).1
      exact absurd rfl this
    | negSucc n =>
      simp only [Itoa, List.cons.injEq, true_and] at hd
      have := natToDec_inj hd
      have hmn : m = n := by omega
      rw [hmn]

theorem Itoa_no_slash (z : Int) : '/' ∉ (Itoa z).data := by
  intro h
  cases z with
  | ofNat n => exact (natToDec_chars n '/' h).2 rfl
  | negSucc n =>
    simp only [Itoa, List.mem_cons] at h
    rcases h with h | h
    · exact absurd h (by decide)
    · exact (natToDec_chars (n + 1) '/' h).2 rfl

end Strings

/-! ## Joining a directory and a file name -/

section Paths

theorem splitSlash_ne_nil (s : List Char) : splitSlash s ≠ [] := by
  cases s with
  | nil => simp [splitSlash]
  | cons c cs =>
    unfold splitSlash
    split
    · simp
    · split <;> simp

theorem splitSlash_plain (e : List Char) (h : '/' ∉ e) : splitSlash e = [e] := by
  induction e with
  | nil => rfl
  | cons c cs ih =>
    simp only [List.mem_cons, not_or] at h
    have hc : c ≠ '/' := fun hc => h.1 hc.symm
    simp [splitSlash, hc, ih h.2]

theorem splitSlash_append (a e : List Char) :
    splitSlash (a ++ '/' :: e) = splitSlash a ++ splitSlash e := by
  induction a with
  | nil => simp [splitSlash]
  | cons c cs ih =>
    by_cases hc : c = '/'
    · simp [splitSlash, hc, ih]
    · simp only [List.cons_append, splitSlash, hc, if_false, List.append_eq]
      rw [ih]
      cases hs : splitSlash cs with
      | nil => exact absurd hs (splitSlash_ne_nil cs)
      | cons h t => simp

theorem joinSlash_snoc (xs : List (List Char)) (e : List Char) :
    joinSlash (xs ++ [e]) = (if xs = [] then [] else joinSlash xs ++ ['/']) ++ e := by
  induction xs with
  | nil => simp [joinSlash]
  | cons x xs ih =>
    cases xs with
    | nil => simp [joinSlash]
    | cons y ys =>
      have ih2 : joinSlash (y :: (ys ++ [e])) = joinSlash (y :: ys) ++ ['/'] ++ e := by
        simpa using ih
      show x ++ '/' :: joinSlash (y :: (ys ++ [e])) = _
      rw [ih2]
      simp [joinSlash]

theorem cleanStep_plain (rooted : Bool) (st : List (List Char)) (e : List Char) (h : Plain e) :
    cleanStep rooted st e = e :: st := by
  obtain ⟨_, h1, h2, h3⟩ := h
  simp [cleanStep, h1, h2, h3]

/-- Joining a directory with a plain file name puts the name, unchanged, after
a lead that depends on the directory only. -/
theorem filepathJoin_plain (dir : String) :
    ∃ lead : List Char, ∀ elem : String, Plain elem.data →
      (filepathJoin dir elem).data = lead ++ elem.data := by
  cases hd : dir.data with
  | nil =>
    refine ⟨[], ?_⟩
    intro elem hp
    have hne : elem.data ≠ [] := hp.2.1
    simp only [filepathJoin, hd, ne_eq, not_true_eq_false, if_false, hne, not_false_eq_true,
      if_true, List.nil_append]
    cases he : elem.data with
    | nil => exact absurd he hne
    | cons c cs =>
      have hp2 : Plain (c :: cs) := he ▸ hp
      have hc : c ≠ '/' := fun hc => hp2.1 (by simp [hc])
      simp [Clean, hc, splitSlash_plain _ hp2.1, cleanStep_plain _ _ _ hp2, joinSlash]
  | cons d ds =>
    refine ⟨(if d = '/' then ['/'] else []) ++
      (if (splitSlash (d :: ds)).foldl (cleanStep (decide (d = '/'))) [] = [] then []
       else joinSlash ((splitSlash (d :: ds)).foldl (cleanStep (decide (d = '/'))) []).reverse
         ++ ['/']), ?_⟩
    intro elem hp
    simp only [filepathJoin, hd, ne_eq, reduceCtorEq, not_false_eq_true, if_true,
      List.cons_append, Clean]
    rw [← List.cons_append, splitSlash_append, splitSlash_plain _ hp.1, List.foldl_append]
    simp only [List.foldl_cons, List.foldl_nil, cleanStep_plain _ _ _ hp, List.reverse_cons,
      joinSlash_snoc, List.reverse_eq_nil_iff]
    by_cases hr : d = '/' <;> simp [hr]

end Paths

/-! ## Normalised names and cache paths -/

section Names

theorem replaceAllFrom_notAlnum (s : List Char) :
    replaceAllFrom [Tok.one CharSet.notAlnum] [] 0 s = s.filter Char.isAlphanum := by
  induction s with
  | nil => rfl
  | cons x s ih =>
    by_cases hx : x.isAlphanum = true
    · simp [replaceAllFrom, matchHere, CharSet.test, hx, ih]
    · simp [replaceAllFrom, matchHere, CharSet.test, hx, ih]

theorem normalizeString_data (str : String) :
    (normalizeString str).data = str.data.filter Char.isAlphanum := by
  simp [normalizeString, replaceAllFrom_notAlnum]

theorem normalizeString_alnum (str : String) :
    ∀ c ∈ (normalizeString str).data, c.isAlphanum = true := by
  intro c hc
  rw [normalizeString_data] at hc
  exact (List.mem_filter.mp hc).2

/-- C6. Filename normalization: the token that `searchManga` makes of a
display name (spaces replaced by underscores, then `normalizeString`) is the
name with every character that is not an ASCII letter or digit deleted and the
others kept in order; it consists of ASCII letters and digits only; and
`"One Piece: Special!"` gives `"OnePieceSpecial"`. -/
theorem normalizeString_spec (name : String) :
    (normalizeString (ReplaceAll name ' ' '_')).data = name.data.filter Char.isAlphanum ∧
      (∀ c ∈ (normalizeString (ReplaceAll name ' ' '_')).data, c.isAlphanum = true) ∧
      normalizeString (ReplaceAll "One Piece: Special!" ' ' '_') = "OnePieceSpecial" := by
  refine ⟨?_, normalizeString_alnum _, by decide⟩
  rw [normalizeString_data]
  simp only [ReplaceAll]
  induction name.data with
  | nil => rfl
  | cons c cs ih =>
    by_cases hc : c = ' '
    · subst hc
      have h1 : Char.isAlphanum '_' = false := by decide
      have h2 : Char.isAlphanum ' ' = false := by decide
      simp only [List.map_cons, if_true, List.filter_cons, h1, h2, ih]
      simp
    · simp only [List.map_cons, hc, if_false, List.filter_cons, ih]

theorem split_at_first {c : Char} : ∀ (l1 l2 r1 r2 : List Char), c ∉ l1 → c ∉ l2 →
    l1 ++ c :: r1 = l2 ++ c :: r2 → l1 = l2 ∧ r1 = r2
  | [], [], _, _, _, _, h => by simpa using h
  | [], y :: l2, _, _, _, h2, h => by
    simp only [List.nil_append, List.cons_append, List.cons.injEq] at h
    exact absurd (by simp [h.1]) h2
  | x :: l1, [], _, _, h1, _, h => by
    simp only [List.nil_append, List.cons_append, List.cons.injEq] at h
    exact absurd (by simp [h.1]) h1
  | x :: l1, y :: l2, r1, r2, h1, h2, h => by
    simp only [List.cons_append, List.cons.injEq] at h
    have := split_at_first l1 l2 r1 r2 (fun hm => h1 (by simp [hm])) (fun hm => h2 (by simp [hm]))
      h.2
    simp [h.1, this.1, this.2]

theorem alnum_not_mem {l : List Char} (h : ∀ c ∈ l, c.isAlphanum = true) :
    '-' ∉ l ∧ '/' ∉ l := by
  constructor
  · intro hm
    exact absurd (h _ hm) (by decide)
  · intro hm
    exact absurd (h _ hm) (by decide)

theorem archiveName_data (mangaName : String) (chapterNumber : Int) :
    (archiveName mangaName chapterNumber).data =
      mangaName.data ++ '-' :: ((Itoa chapterNumber).data ++ ['.', 'c', 'b', 'z']) := by
  simp [archiveName, String.data_append]

theorem archiveName_plain (mangaName : String) (chapterNumber : Int)
    (h : ∀ c ∈ mangaName.data, c.isAlphanum = true) :
    Plain (archiveName mangaName chapterNumber).data := by
  rw [archiveName_data]
  have hn := alnum_not_mem h
  have hmem : '-' ∈ mangaName.data ++ '-' :: ((Itoa chapterNumber).data ++ ['.', 'c', 'b', 'z']) := by
    simp
  refine ⟨?_, ?_, ?_, ?_⟩
  · simp only [List.mem_append, List.mem_cons, List.mem_singleton, List.not_mem_nil, or_false,
      not_or]
    refine ⟨hn.2, by decide, Itoa_no_slash _, by decide, by decide, by decide, by decide⟩
  · intro h0
    rw [h0] at hmem
    simp at hmem
  · intro h0
    rw [h0] at hmem
    revert hmem
    decide
  · intro h0
    rw [h0] at hmem
    revert hmem
    decide

/-- The archive path determines the name and the chapter, for names made of
ASCII letters and digits. -/
theorem archivePath_inj_of_alnum (imageDir name1 name2 : String) (n1 n2 : Int)
    (h1 : ∀ c ∈ name1.data, c.isAlphanum = true) (h2 : ∀ c ∈ name2.data, c.isAlphanum = true)
    (h : archivePath imageDir name1 n1 = archivePath imageDir name2 n2) :
    name1 = name2 ∧ n1 = n2 := by
  obtain ⟨lead, hlead⟩ := filepathJoin_plain imageDir
  have hd := congrArg String.data h
  simp only [archivePath] at hd
  rw [hlead _ (archiveName_plain name1 n1 h1), hlead _ (archiveName_plain name2 n2 h2)] at hd
  have he := List.append_cancel_left hd
  rw [archiveName_data, archiveName_data] at he
  obtain ⟨hname, hrest⟩ := split_at_first _ _ _ _ (alnum_not_mem h1).1 (alnum_not_mem h2).1 he
  have hi := List.append_cancel_right hrest
  exact ⟨String.ext hname, Itoa_inj (String.ext hi)⟩

/-- C7. Cache paths do not collide: for a fixed cache directory, normalised
names (outputs of `normalizeString`) and any chapter numbers, zero and negative
ones included, two archive paths are equal exactly when the names are equal and
the chapter numbers are equal. The path is a function of the pair, so deriving
it again gives the same path. -/
theorem archivePath_inj (imageDir raw1 raw2 : String) (n1 n2 : Int) :
    archivePath imageDir (normalizeString raw1) n1 = archivePath imageDir (normalizeString raw2) n2
      ↔ normalizeString raw1 = normalizeString raw2 ∧ n1 = n2 := by
  constructor
  · exact archivePath_inj_of_alnum imageDir _ _ n1 n2 (normalizeString_alnum raw1)
      (normalizeString_alnum raw2)
  · rintro ⟨hname, hn⟩
    rw [hname, hn]

end Names

/-! ## The selection of a search result -/

section Selection

theorem pickManga_not_number (mangaNames mangaIDs : List String) (s : String)
    (h : Atoi s = none) : pickManga mangaNames mangaIDs s = Res.fatal "Invalid manga number" := by
  simp [pickManga, h]

theorem pickManga_outside (mangaNames mangaIDs : List String) (s : String) (k : Int)
    (h : Atoi s = some k) (hk : k < 1 ∨ (mangaIDs.length : Int) < k) :
    pickManga mangaNames mangaIDs s = Res.fatal "Invalid manga number" := by
  simp [pickManga, h, hk]

theorem pickManga_inside (mangaNames mangaIDs : List String) (s : String) (k : Int)
    (h : Atoi s = some k) (h1 : 1 ≤ k) (h2 : k ≤ (mangaIDs.length : Int))
    (h3 : k ≤ (mangaNames.length : Int)) :
    ∃ name link, mangaNames[(k - 1).toNat]? = some name ∧ mangaIDs[(k - 1).toNat]? = some link ∧
      pickManga mangaNames mangaIDs s =
        Res.ok (normalizeString (ReplaceAll name ' ' '_'), link) := by
  have hi : (k - 1).toNat < mangaIDs.length := by omega
  have hn : (k - 1).toNat < mangaNames.length := by omega
  have hguard : ¬ (k < 1 ∨ (mangaIDs.length : Int) < k) := by omega
  refine ⟨mangaNames[(k - 1).toNat], mangaIDs[(k - 1).toNat], List.getElem?_eq_getElem hn,
    List.getElem?_eq_getElem hi, ?_⟩
  simp only [pickManga, h, gt_iff_lt, hguard, if_false, List.getElem?_eq_getElem hn,
    List.getElem?_eq_getElem hi]

theorem pickManga_slip (mangaNames mangaIDs : List String) (s : String) (k : Int)
    (h : Atoi s = some k) (h1 : 1 ≤ k) (h2 : k ≤ (mangaIDs.length : Int))
    (h3 : (mangaNames.length : Int) < k) :
    pickManga mangaNames mangaIDs s = Res.panic "index out of range" := by
  have hn : mangaNames.length ≤ (k - 1).toNat := by omega
  have hguard : ¬ (k < 1 ∨ (mangaIDs.length : Int) < k) := by omega
  simp only [pickManga, h, gt_iff_lt, hguard, if_false, List.getElem?_eq_none hn]

/-- C1, as amended. Selection bounds in `searchManga`: the selection fails with
"Invalid manga number" when the answer is not an integer or when the integer is
outside `[1, len(mangaIDs)]`; when the integer is in `[1, len(mangaIDs)]` and
at most `len(mangaNames)`, it succeeds and yields the normalised name and the
link at position `index - 1`. In particular, when the two lists have the same
length, which is not zero, index `0` and index `len + 1` fail and index `1`
and index `len` succeed. -/
theorem pickManga_bounds (mangaNames mangaIDs : List String) (s : String) :
    (Atoi s = none → pickManga mangaNames mangaIDs s = Res.fatal "Invalid manga number") ∧
      (∀ k, Atoi s = some k → (k < 1 ∨ (mangaIDs.length : Int) < k) →
        pickManga mangaNames mangaIDs s = Res.fatal "Invalid manga number") ∧
      (∀ k, Atoi s = some k → 1 ≤ k → k ≤ (mangaIDs.length : Int) →
        k ≤ (mangaNames.length : Int) →
        ∃ name link, mangaNames[(k - 1).toNat]? = some name ∧
          mangaIDs[(k - 1).toNat]? = some link ∧
          pickManga mangaNames mangaIDs s =
            Res.ok (normalizeString (ReplaceAll name ' ' '_'), link)) ∧
      (mangaNames ≠ [] → mangaIDs.length = mangaNames.length →
        (Atoi s = some 0 → pickManga mangaNames mangaIDs s = Res.fatal "Invalid manga number") ∧
        (Atoi s = some ((mangaNames.length : Int) + 1) →
          pickManga mangaNames mangaIDs s = Res.fatal "Invalid manga number") ∧
        (Atoi s = some 1 →
          ∃ name link, mangaNames[0]? = some name ∧ mangaIDs[0]? = some link ∧
            pickManga mangaNames mangaIDs s =
              Res.ok (normalizeString (ReplaceAll name ' ' '_'), link)) ∧
        (Atoi s = some (mangaNames.length : Int) →
          ∃ name link, mangaNames[mangaNames.length - 1]? = some name ∧
            mangaIDs[mangaNames.length - 1]? = some link ∧
            pickManga mangaNames mangaIDs s =
              Res.ok (normalizeString (ReplaceAll name ' ' '_'), link))) := by
  refine ⟨pickManga_not_number mangaNames mangaIDs s, pickManga_outside mangaNames mangaIDs s,
    pickManga_inside mangaNames mangaIDs s, ?_⟩
  intro hne hlen
  have hpos : 0 < mangaNames.length := List.length_pos.mpr hne
  refine ⟨?_, ?_, ?_, ?_⟩
  · intro h
    exact pickManga_outside mangaNames mangaIDs s 0 h (by omega)
  · intro h
    exact pickManga_outside mangaNames mangaIDs s _ h (by omega)
  · intro h
    have := pickManga_inside mangaNames mangaIDs s 1 h (by omega) (by omega) (by omega)
    simpa using this
  · intro h
    have := pickManga_inside mangaNames mangaIDs s _ h (by omega) (by omega) (by omega)
    have hidx : ((mangaNames.length : Int) - 1).toNat = mangaNames.length - 1 := by omega
    rw [hidx] at this
    exact this

/-- Witness of C1, as amended: the second of two results. -/
theorem pickManga_bounds_witness :
    ∃ name link, ["One Piece", "Naruto"][((2 : Int) - 1).toNat]? = some name ∧
      ["/manga-aa", "/manga-bb"][((2 : Int) - 1).toNat]? = some link ∧
      pickManga ["One Piece", "Naruto"] ["/manga-aa", "/manga-bb"] "2" =
        Res.ok (normalizeString (ReplaceAll name ' ' '_'), link) :=
  (pickManga_bounds ["One Piece", "Naruto"] ["/manga-aa", "/manga-bb"] "2").2.2.1 2
    (by decide) (by decide) (by decide) (by decide)

/-- C1 fails as stated: this markup has one result with a name and no link, so
one name is shown and no link is extracted; the answer `1` is an integer in
`[1, len(mangaNames)]`, and the selection is rejected. -/
theorem pickManga_shown_entry_rejected :
    extractTextBySelector "<div.item-right h3 a>Naruto</div.item-right h3 a>"
        "div.item-right h3 a" = ["Naruto"] ∧
      extractAttrBySelector "<div.item-right h3 a>Naruto</div.item-right h3 a>"
        "div.item-right h3 a" "href" = [] ∧
      Atoi "1" = some 1 ∧ (1 : Int) ≤ (["Naruto"].length : Int) ∧
      pickManga ["Naruto"] [] "1" = Res.fatal "Invalid manga number" := by
  decide

/-- C10, evaluated on the code. The search response holds one complete result
and a second opening tag with a link and no closing tag: one name and two links
are extracted. The answer `2` passes the guard, which compares with the number
of links, and the lookup of the second name is out of range: `searchManga`
ends with a run-time panic. -/
theorem searchManga_index_out_of_range :
    extractTextBySelector
        "<div.item-right h3 a href=\x27/manga-aa\x27>Naruto</div.item-right h3 a><div.item-right h3 a href=\x27/manga-bb\x27>"
        "div.item-right h3 a" = ["Naruto"] ∧
      extractAttrBySelector
        "<div.item-right h3 a href=\x27/manga-aa\x27>Naruto</div.item-right h3 a><div.item-right h3 a href=\x27/manga-bb\x27>"
        "div.item-right h3 a" "href" = ["/manga-aa", "/manga-bb"] ∧
      (searchManga (scripted none (fun _ => false)
        (fun _ => some
          "<div.item-right h3 a href=\x27/manga-aa\x27>Naruto</div.item-right h3 a><div.item-right h3 a href=\x27/manga-bb\x27>")
        (fun _ => false) (fun _ => false)) ["naruto", "2"]).res =
        Res.panic "index out of range" := by
  decide

end Selection

end Kamishiba
